import Mathlib

/-!
Verification of the Catalog Reconciliation Engine (everstacklabs/sentinel).

Shallow embedding of the Go sources:
  internal/diff/diff.go, internal/diff/changeset.go  — Diff Engine
  internal/catalog/writer.go                         — Smart-Merge Writer
  internal/pipeline/pipeline.go                      — Risk Assessor, version bump

Go float64 values are modelled as rationals, Go ints as Int/Nat, Go maps
as association lists (with an explicit iteration order where the Go code
ranges over a map), and yaml.Node trees as an inductive type.
-/

namespace Sentinel

/-- Model pricing (catalog.Cost; float64 fields modelled as ℚ). -/
structure Cost where
  inputPer1K : ℚ
  outputPer1K : ℚ
deriving DecidableEq

/-- Token limits (catalog.Limits). -/
structure Limits where
  maxTokens : Int
  maxCompletionTokens : Int
deriving DecidableEq

/-- Input/output modalities (catalog.Modalities). -/
structure Modalities where
  input : List String
  output : List String
deriving DecidableEq

/-- Updater metadata appended to model files (catalog.XUpdater). -/
structure XUpdater where
  lastVerifiedAt : String
  sources : List String
deriving DecidableEq

/-- A model YAML file in the catalog (catalog.Model). -/
structure Model where
  name : String
  displayName : String
  family : String
  status : String
  cost : Option Cost
  limits : Limits
  capabilities : List String
  modalities : Modalities
  xUpdater : Option XUpdater
deriving DecidableEq

/-- An adapter-produced candidate (adapter.DiscoveredModel).  The adapter
package declares its own Cost/Limits/Modalities types with fields identical
to the catalog ones; we share the catalog types here since toCatalogModel
copies them field by field. -/
structure DiscoveredModel where
  name : String
  displayName : String
  family : String
  status : String
  cost : Option Cost
  limits : Limits
  capabilities : List String
  modalities : Modalities
  discoveredBy : String
deriving DecidableEq

/-- A dynamically typed Go value, as stored in FieldChange's `any` fields.
`vNil` is Go's nil, `vFloat` a float64 (modelled as ℚ), `vCost` a *Cost. -/
inductive GoVal where
  | vNil
  | vStr (s : String)
  | vFloat (x : ℚ)
  | vInt (n : Int)
  | vStrList (l : List String)
  | vCost (c : Cost)
deriving DecidableEq

/-- The Go type assertion `v.(float64)`: some when the dynamic type is float64. -/
def GoVal.asFloat : GoVal → Option ℚ
  | .vFloat x => some x
  | _ => none

/-- A single field change for diff reporting (catalog.FieldChange). -/
structure FieldChange where
  field : String
  oldValue : GoVal
  newValue : GoVal
deriving DecidableEq

/-- diff.DiffOptions. -/
structure DiffOptions where
  trackDisplayName : Bool
deriving DecidableEq

/-- diff.ModelChange: a new or deprecated model. -/
structure ModelChange where
  name : String
  model : Model
deriving DecidableEq

/-- diff.ModelUpdate: an existing model with field changes. -/
structure ModelUpdate where
  name : String
  model : Model
  changes : List FieldChange
deriving DecidableEq

/-- diff.RenamePair. -/
structure RenamePair where
  oldName : String
  newName : String
  reason : String
deriving DecidableEq

/-- diff.ChangeSet. -/
structure ChangeSet where
  provider : String
  new : List ModelChange
  updated : List ModelUpdate
  deprecationCandidates : List ModelChange
  possibleRenames : List RenamePair
  unchanged : Nat
deriving DecidableEq

/-- changeset.go TotalChanged: count of new + updated models. -/
def TotalChanged (cs : ChangeSet) : Nat :=
  cs.new.length + cs.updated.length

/-- diff.go zeroCost: both costs zero, indicating missing data. -/
def zeroCost (c : Cost) : Bool :=
  c.inputPer1K == 0 && c.outputPer1K == 0

/-- Splits a character list at every occurrence of `sep`. -/
def splitCharList (sep : Char) : List Char → List (List Char)
  | [] => [[]]
  | c :: rest =>
    let r := splitCharList sep rest
    if c = sep then [] :: r
    else
      match r with
      | h :: t => (c :: h) :: t
      | [] => [[c]]

/-- Go strings.Split for a single-character separator (the only separators
the sources use are "-", "." and "/"). -/
def splitOnChar (sep : Char) (s : String) : List String :=
  (splitCharList sep s.toList).map String.mk

/-- diff.go isAllDigits. -/
def isAllDigits (s : String) : Bool :=
  s.toList.all (fun c => decide ('0' ≤ c) && decide (c ≤ '9')) && decide (s.length > 0)

/-- diff.go looksLikeDatedSnapshot: the name contains a date-like segment. -/
def looksLikeDatedSnapshot (name : String) : Bool :=
  let parts := splitOnChar '-' name
  if parts.length < 2 then false
  else
    ((parts.drop 1).any fun p =>
      (p.length == 4 || p.length == 8) && isAllDigits p)
    -- YYYY-MM-DD across three segments
    || ((List.range parts.length).any fun i =>
      decide (1 ≤ i) && decide (i + 2 < parts.length) &&
      (parts.getD i "").length == 4 && (parts.getD (i+1) "").length == 2 &&
      (parts.getD (i+2) "").length == 2 &&
      isAllDigits (parts.getD i "") && isAllDigits (parts.getD (i+1) "") &&
      isAllDigits (parts.getD (i+2) ""))

/-- diff.go capabilitiesChanged: true if the two capability slices differ
as sets (additions or removals); Go's membership maps become List.contains. -/
def capabilitiesChanged (existing discovered : List String) : Bool :=
  if existing.isEmpty && discovered.isEmpty then false
  else
    -- Check for additions.
    (discovered.any fun c => !(existing.contains c))
    -- Check for removals.
    || (existing.any fun c => !(discovered.contains c))

/-- Insert into an ascending list, keeping it ascending. -/
def insertSorted (x : String) : List String → List String
  | [] => [x]
  | y :: ys => if x ≤ y then x :: y :: ys else y :: insertSorted x ys

/-- Ascending sort of a string list (sort.Strings; on a total order the
sorted output is independent of the algorithm, insertion sort here). -/
def sortStrings (l : List String) : List String :=
  l.foldr insertSorted []

/-- diff.go equalStringSlices: length check, then sort both copies and
compare elementwise (sort.Strings). -/
def equalStringSlices (a b : List String) : Bool :=
  a.length == b.length && sortStrings a == sortStrings b

/-- diff.go toCatalogModel: field-by-field copy of a DiscoveredModel into a
catalog Model (XUpdater is left at its zero value, nil). -/
def toCatalogModel (d : DiscoveredModel) : Model :=
  { name := d.name
    displayName := d.displayName
    family := d.family
    status := d.status
    cost := d.cost
    limits := ⟨d.limits.maxTokens, d.limits.maxCompletionTokens⟩
    capabilities := d.capabilities
    modalities := ⟨d.modalities.input, d.modalities.output⟩
    xUpdater := none }

/-- diff.go computeFieldChanges.  The Go function appends to a changes
slice guarded by ifs; we render each guarded append as a concatenated
(possibly empty) segment, in source order. -/
def computeFieldChanges (existing discovered : Model) (opts : DiffOptions) : List FieldChange :=
  -- Display name: only compare when TrackDisplayName is enabled.
  (if opts.trackDisplayName &&
      discovered.displayName != "" && existing.displayName != discovered.displayName
   then [⟨"display_name", .vStr existing.displayName, .vStr discovered.displayName⟩] else [])
  ++ (if discovered.family != "" && existing.family != discovered.family
      then [⟨"family", .vStr existing.family, .vStr discovered.family⟩] else [])
  ++ (if discovered.status != "" && existing.status != discovered.status
      then [⟨"status", .vStr existing.status, .vStr discovered.status⟩] else [])
  -- Cost: skip zero-cost discovered data (likely missing pricing, not actually free).
  ++ (match discovered.cost with
      | none => []
      | some dc =>
        if zeroCost dc then []
        else match existing.cost with
          | none => [⟨"cost", .vNil, .vCost dc⟩]
          | some ec =>
            (if ec.inputPer1K != dc.inputPer1K
             then [⟨"cost.input_per_1k", .vFloat ec.inputPer1K, .vFloat dc.inputPer1K⟩] else [])
            ++ (if ec.outputPer1K != dc.outputPer1K
                then [⟨"cost.output_per_1k", .vFloat ec.outputPer1K, .vFloat dc.outputPer1K⟩] else []))
  ++ (if discovered.limits.maxTokens != 0 &&
         existing.limits.maxTokens != discovered.limits.maxTokens
      then [⟨"limits.max_tokens", .vInt existing.limits.maxTokens, .vInt discovered.limits.maxTokens⟩] else [])
  ++ (if discovered.limits.maxCompletionTokens != 0 &&
         existing.limits.maxCompletionTokens != discovered.limits.maxCompletionTokens
      then [⟨"limits.max_completion_tokens", .vInt existing.limits.maxCompletionTokens,
             .vInt discovered.limits.maxCompletionTokens⟩] else [])
  -- Capabilities: symmetric set diff (detect both additions and removals).
  ++ (if capabilitiesChanged existing.capabilities discovered.capabilities
      then [⟨"capabilities", .vStrList existing.capabilities, .vStrList discovered.capabilities⟩] else [])
  -- Modalities: compare input and output slices.
  ++ (if !(equalStringSlices existing.modalities.input discovered.modalities.input)
      then [⟨"modalities.input", .vStrList existing.modalities.input,
             .vStrList discovered.modalities.input⟩] else [])
  ++ (if !(equalStringSlices existing.modalities.output discovered.modalities.output)
      then [⟨"modalities.output", .vStrList existing.modalities.output,
             .vStrList discovered.modalities.output⟩] else [])

example : zeroCost ⟨0, 0⟩ = true := by decide
example : isAllDigits "20240101" = true := by decide
example : looksLikeDatedSnapshot "gpt-4o-2024-05-13" = true := by decide
example : looksLikeDatedSnapshot "alpha" = false := by decide

/-- The cost `continue` guard of detectRenames: fires when both costs are
present, the old input cost is positive, and the ratio is off by more
than 20%. -/
def costSimilarityFails (oldCost newCost : Option Cost) : Bool :=
  match oldCost, newCost with
  | some oc, some nc =>
    oc.inputPer1K > 0 && decide (|nc.inputPer1K / oc.inputPer1K - 1| > 2/10)
  | _, _ => false

/-- diff.go detectRenames: nested loops over new × disappeared emitting a
pair unless one of the `continue` guards fires; flatMap/filterMap keeps the
source's emission order. -/
def detectRenames (newModels disappeared : List ModelChange) : List RenamePair :=
  newModels.flatMap fun newM =>
    disappeared.filterMap fun oldM =>
      if newM.model.family != oldM.model.family || newM.model.family == "" then none
      -- Check limits similarity (within 10%)
      else if oldM.model.limits.maxTokens > 0 && newM.model.limits.maxTokens > 0 &&
              decide (|((newM.model.limits.maxTokens : ℚ) / (oldM.model.limits.maxTokens : ℚ)) - 1| > 1/10)
      then none
      -- Check cost similarity (within 20%)
      else if costSimilarityFails oldM.model.cost newM.model.cost then none
      else some ⟨oldM.name, newM.name, "same family, similar limits/cost"⟩


/-- diff.go Compute.  The Go `existing` argument is a map[string]*Model;
Go map iteration order is unspecified, so the map is modelled as an
association list carrying an explicit iteration order (unique keys), and
`existing[name]` becomes List.lookup. -/
def Compute (provider : String) (discovered : List DiscoveredModel)
    (existing : List (String × Model)) (opts : DiffOptions) : ChangeSet :=
  let step := fun (acc : List ModelChange × List ModelUpdate × Nat) (d : DiscoveredModel) =>
    let catalogModel := toCatalogModel d
    match existing.lookup d.name with
    | none => (acc.1 ++ [⟨d.name, catalogModel⟩], acc.2.1, acc.2.2)
    | some existingModel =>
      -- Compare fields
      let changes := computeFieldChanges existingModel catalogModel opts
      if changes.length > 0 then
        (acc.1, acc.2.1 ++ [⟨d.name, catalogModel, changes⟩], acc.2.2)
      else
        (acc.1, acc.2.1, acc.2.2 + 1)
  let acc := discovered.foldl step ([], [], 0)
  let news := acc.1
  let updates := acc.2.1
  let unchangedCount := acc.2.2
  let discoveredNames := discovered.map (·.name)
  -- Deprecation candidates: in catalog but not discovered, skipping dated snapshots.
  let disappeared :=
    (existing.filter fun kv =>
      !(discoveredNames.contains kv.1) && !(looksLikeDatedSnapshot kv.1)).map
      fun kv => ModelChange.mk kv.1 kv.2
  -- Rename detection, then drop matched old names from the candidates.
  let possibleRenames := detectRenames news disappeared
  let renameOldNames := possibleRenames.map (·.oldName)
  let deprecationCandidates := disappeared.filter fun mc => !(renameOldNames.contains mc.name)
  ⟨provider, news, updates, deprecationCandidates, possibleRenames, unchangedCount⟩

/-! ## Smart-Merge Writer (internal/catalog/writer.go) -/

/-- A yaml.Node tree.  yaml.v3 node kinds relevant to the writer are
document, mapping (content modelled as key/value pairs with scalar string
keys), sequence and scalar. -/
inductive YNode where
  | scalar (value : String)
  | mapping (pairs : List (String × YNode))
  | sequence (items : List YNode)
  | document (content : List YNode)

/-- The pairs of a mapping node ([] on any other kind). -/
def mappingPairs : YNode → List (String × YNode)
  | .mapping ps => ps
  | _ => []

/-- True exactly on mapping nodes (Go `n.Kind == yaml.MappingNode`). -/
def isMapping : YNode → Bool
  | .mapping _ => true
  | _ => false

/-- writer.go mergeNodes' document unwrapping: a document node with
non-empty content is replaced by its first child. -/
def unwrapDoc : YNode → YNode
  | .document (c :: _) => c
  | n => n

/-- Lookup in a Go map built by inserting the pairs left to right with
overwrite semantics: the last occurrence of a key wins. -/
def goMapLookup (ps : List (String × YNode)) (k : String) : Option YNode :=
  ps.reverse.lookup k

/-- writer.go mergeNodes: overlays src mapping keys onto dst mapping,
preserving dst order and any keys in dst not present in src; if either
unwrapped node is not a mapping, src is returned wholesale.  `seen` marks
exactly the dst keys found in the src map, as in the Go update loop. -/
def mergeNodes (dst src : YNode) : YNode :=
  let dst := unwrapDoc dst
  let src := unwrapDoc src
  match dst, src with
  | .mapping dstPs, .mapping srcPs =>
    -- Update existing keys in dst order.
    let updated := dstPs.map fun kv =>
      match goMapLookup srcPs kv.1 with
      | some srcVal => (kv.1, srcVal)
      | none => kv
    let seen := fun k => (dstPs.any fun kv => kv.1 == k) && (goMapLookup srcPs k).isSome
    -- Append new keys from src not in dst.
    let appended := srcPs.filter fun kv => !(seen kv.1)
    .mapping (updated ++ appended)
  | _, src => src

/-- writer.go toSet-style membership is List.contains; computeChanges is the
writer's own field diff (note: unlike diff.go it always compares
display_name, has no zero-cost guard, only detects capability additions,
and never compares modalities). -/
def computeChanges (existing discovered : Model) : List FieldChange :=
  (if existing.displayName != discovered.displayName && discovered.displayName != ""
   then [⟨"display_name", .vStr existing.displayName, .vStr discovered.displayName⟩] else [])
  ++ (if existing.family != discovered.family && discovered.family != ""
      then [⟨"family", .vStr existing.family, .vStr discovered.family⟩] else [])
  ++ (if existing.status != discovered.status && discovered.status != ""
      then [⟨"status", .vStr existing.status, .vStr discovered.status⟩] else [])
  -- Cost changes
  ++ (match discovered.cost with
      | none => []
      | some dc =>
        match existing.cost with
        | none => [⟨"cost", .vNil, .vCost dc⟩]
        | some ec =>
          (if ec.inputPer1K != dc.inputPer1K
           then [⟨"cost.input_per_1k", .vFloat ec.inputPer1K, .vFloat dc.inputPer1K⟩] else [])
          ++ (if ec.outputPer1K != dc.outputPer1K
              then [⟨"cost.output_per_1k", .vFloat ec.outputPer1K, .vFloat dc.outputPer1K⟩] else []))
  -- Limits changes
  ++ (if discovered.limits.maxTokens != 0 &&
         existing.limits.maxTokens != discovered.limits.maxTokens
      then [⟨"limits.max_tokens", .vInt existing.limits.maxTokens, .vInt discovered.limits.maxTokens⟩] else [])
  ++ (if discovered.limits.maxCompletionTokens != 0 &&
         existing.limits.maxCompletionTokens != discovered.limits.maxCompletionTokens
      then [⟨"limits.max_completion_tokens", .vInt existing.limits.maxCompletionTokens,
             .vInt discovered.limits.maxCompletionTokens⟩] else [])
  -- Capabilities — check for additions (single append, the Go loop breaks)
  ++ (if discovered.capabilities.any fun c => !(existing.capabilities.contains c)
      then [⟨"capabilities", .vStrList existing.capabilities, .vStrList discovered.capabilities⟩] else [])

/-- writer.go WriteModel line 47: the target file name is the record's
Name with the ".yaml" extension appended verbatim. -/
def writeModelFilename (name : String) : String :=
  name ++ ".yaml"

/-- The last path segment of a name after a namespace prefix, as computed
by ValidateModel (strings.LastIndex on "/" plus a slice). -/
def lastSegment (name : String) : String :=
  (splitOnChar '/' name).getLastD ""

/-- ValidateModel's expected file name: last segment of the name field plus
".yaml" (no lower-casing). -/
def validateExpectedFilename (name : String) : String :=
  lastSegment name ++ ".yaml"

/-- Character-list lower-casing (equivalent to strings.ToLower on ASCII
names; String.map itself does not reduce in the kernel). -/
def lowerStr (s : String) : String :=
  String.mk (s.toList.map Char.toLower)

/-- Modelled from the spec (for the refinement comparison of C9): "the last
path-like segment of `Name` after any namespace prefix, lower-cased,
suffixed with the group's file extension". -/
def specTargetFilename (name : String) : String :=
  lowerStr (lastSegment name) ++ ".yaml"

/-! ## Pipeline: version bump and risk assessment (pipeline.go) -/

/-- Numeric value of a digit list (most significant first). -/
def digitsVal (cs : List Char) : Nat :=
  cs.foldl (fun acc c => acc * 10 + (c.toNat - '0'.toNat)) 0

/-- fmt.Sscanf with a single "%d" verb, as used by bumpSemver: skip leading
whitespace, an optional sign, then a digit prefix.  When no digit is found
the scan fails; bumpSemver ignores Sscanf's results, so the destination
keeps its zero value — hence 0 here. -/
def scanInt (s : String) : Int :=
  let cs := s.toList.dropWhile fun c => c == ' ' || c == '\t' || c == '\n'
  match cs with
  | '-' :: rest =>
    let ds := rest.takeWhile Char.isDigit
    if ds.isEmpty then 0 else -(digitsVal ds : Int)
  | '+' :: rest =>
    let ds := rest.takeWhile Char.isDigit
    if ds.isEmpty then 0 else (digitsVal ds : Int)
  | _ =>
    let ds := cs.takeWhile Char.isDigit
    if ds.isEmpty then 0 else (digitsVal ds : Int)

/-- The arithmetic core of bumpSemver after the three components are
scanned: minor++/patch=0 for new models, else patch++. -/
def bumpTriple (v : Int × Int × Int) (hasNew : Bool) : Int × Int × Int :=
  if hasNew then (v.1, v.2.1 + 1, 0) else (v.1, v.2.1, v.2.2 + 1)

/-- pipeline.go bumpSemver: split on ".", require exactly 3 parts, scan
each with Sscanf "%d" (results ignored), bump, re-format "%d.%d.%d". -/
def bumpSemver (version : String) (hasNew : Bool) : Except String String :=
  match splitOnChar '.' version with
  | [p0, p1, p2] =>
    let t := bumpTriple (scanInt p0, scanInt p1, scanInt p2) hasNew
    .ok (toString t.1 ++ "." ++ toString t.2.1 ++ "." ++ toString t.2.2)
  | _ => .error ("invalid semver: " ++ version)

/-- The cost-delta trigger of assessRisk for one FieldChange: a cost field
whose old and new values are float64, old positive, and the relative delta
beyond 35% or the new value more than double. -/
def costDeltaTrigger (c : FieldChange) : Bool :=
  (c.field == "cost.input_per_1k" || c.field == "cost.output_per_1k") &&
    match c.oldValue.asFloat, c.newValue.asFloat with
    | some oldVal, some newVal =>
      oldVal > 0 &&
        (let delta := (newVal - oldVal) / oldVal
         decide (delta > 35/100) || decide (delta < -(35/100)) || decide (newVal > oldVal * 2))
    | _, _ => false

/-- pipeline.go assessRisk: evaluates the changeset against risk gates and
returns (draft, blocked, reason).  The Go loops set `draft := true` when a
gate fires; the nested loops are folds over the updates' change lists. -/
def assessRisk (cs : ChangeSet) : Bool × Bool × String :=
  -- Changed models > 25 → draft PR
  let draft := decide (TotalChanged cs > 25)
  -- Deprecation candidates > 3 → draft PR
  let draft := if cs.deprecationCandidates.length > 3 then true else draft
  -- Check for large price deltas
  let draft := cs.updated.foldl
    (fun d u => u.changes.foldl (fun d c => if costDeltaTrigger c then true else d) d) draft
  (draft, false, "")

/-! ## Auxiliary definitions for the statements -/

instance : DecidableEq (Except String String) := fun x y =>
  match x, y with
  | .ok a, .ok b =>
    if h : a = b then .isTrue (by rw [h]) else .isFalse (by simp [h])
  | .error a, .error b =>
    if h : a = b then .isTrue (by rw [h]) else .isFalse (by simp [h])
  | .ok _, .error _ => .isFalse (by simp)
  | .error _, .ok _ => .isFalse (by simp)

/-- Strict lexicographic order on 3-component versions. -/
def semverLt (x y : Int × Int × Int) : Prop :=
  x.1 < y.1 ∨ (x.1 = y.1 ∧ (x.2.1 < y.2.1 ∨ (x.2.1 = y.2.1 ∧ x.2.2 < y.2.2)))

/-- Reflexive lexicographic order on 3-component versions. -/
def semverLe (x y : Int × Int × Int) : Prop :=
  semverLt x y ∨ x = y

/-- The stored record of the spec's zero-cost scenario:
`{name: gpt-4o, status: stable, cost: {0.005, 0.015}}`. -/
def gpt4oStored : Model :=
  { name := "gpt-4o", displayName := "", family := "", status := "stable",
    cost := some ⟨mkRat 5 1000, mkRat 15 1000⟩, limits := ⟨0, 0⟩, capabilities := [],
    modalities := ⟨[], []⟩, xUpdater := none }

/-- The discovered record of the spec's zero-cost scenario:
`{name: gpt-4o, status: beta, cost: {0,0}}`. -/
def gpt4oZeroCost : Model :=
  { name := "gpt-4o", displayName := "", family := "", status := "beta",
    cost := some ⟨0, 0⟩, limits := ⟨0, 0⟩, capabilities := [],
    modalities := ⟨[], []⟩, xUpdater := none }

/-- A minimal catalog model used by concrete counterexamples. -/
def blankModel : Model :=
  { name := "", displayName := "", family := "", status := "",
    cost := none, limits := ⟨0, 0⟩, capabilities := [],
    modalities := ⟨[], []⟩, xUpdater := none }

/-- One iteration order of a two-entry existing map {alpha, beta}. -/
def existingOrderAB : List (String × Model) :=
  [("alpha", blankModel), ("beta", blankModel)]

/-- The other iteration order of the same map. -/
def existingOrderBA : List (String × Model) :=
  [("beta", blankModel), ("alpha", blankModel)]

/-- Existing model for the C3 comparison: only a display name set. -/
def displayOnlyStored : Model :=
  { blankModel with displayName := "GPT-4O" }

/-- Discovered model for the C3 comparison: a different display name. -/
def displayOnlyDiscovered : Model :=
  { blankModel with displayName := "GPT-4O v2" }

/-- Existing model of the C3 agreement witness. -/
def agreeStored : Model :=
  { blankModel with
    family := "gpt-4"
    status := "stable"
    cost := some ⟨1, 2⟩
    capabilities := ["chat"] }

/-- Discovered model of the C3 agreement witness. -/
def agreeDiscovered : Model :=
  { blankModel with
    family := "gpt-4"
    status := "beta"
    cost := some ⟨2, 2⟩
    capabilities := ["chat", "vision"] }

/-- The disappeared record of the spec's rename scenario. -/
def renameOldStored : Model :=
  { blankModel with
    name := "gpt-4o-v1"
    family := "gpt-4"
    limits := ⟨128000, 0⟩ }

/-- The newly discovered record of the spec's rename scenario. -/
def renameNewDiscovered : DiscoveredModel :=
  ⟨"gpt-4o-v2", "", "gpt-4", "stable", none, ⟨128000, 0⟩, [], ⟨[], []⟩, "api"⟩

/-- The stored YAML document of the zero-cost scenario, as a node tree
with a non-zero cost mapping. -/
def zeroCostStoredDoc : YNode :=
  .document [.mapping
    [("name", .scalar "gpt-4o"), ("status", .scalar "stable"),
     ("cost", .mapping [("input_per_1k", .scalar "0.005"),
       ("output_per_1k", .scalar "0.015")])]]

/-- The serialized discovered record of the zero-cost scenario, carrying
the zero cost pair. -/
def zeroCostIncomingDoc : YNode :=
  .document [.mapping
    [("name", .scalar "gpt-4o"), ("status", .scalar "beta"),
     ("cost", .mapping [("input_per_1k", .scalar "0"),
       ("output_per_1k", .scalar "0")])]]

/-- The stored mapping document of the writer's merge test: a manually
added "custom_field" between the engine-known keys. -/
def dstExample : List (String × YNode) :=
  [("name", .scalar "gpt-4o"), ("custom_field", .scalar "keep me"),
   ("status", .scalar "stable")]

/-- The incoming mapping document of the writer's merge test. -/
def srcExample : List (String × YNode) :=
  [("name", .scalar "gpt-4o"), ("status", .scalar "beta")]

/-! ## Theorems -/

/-- C1: On the spec's zero-cost scenario (stored cost {0.005, 0.015},
discovered cost {0,0}, status stable→beta) the Diff Engine's field
comparison reports only the status change — the zero cost pair is treated
as absent — but the Smart-Merge Writer's own field diff (computeChanges,
which lacks the zeroCost guard) additionally reports both cost components
changing to 0, so the write path overwrites the stored non-zero cost.
This exhibits the code bug: the claim holds for the Diff Engine and fails
on the writer's path. -/
theorem c1_writer_zero_cost_not_treated_as_absent :
    computeFieldChanges gpt4oStored gpt4oZeroCost ⟨false⟩ =
      [⟨"status", .vStr "stable", .vStr "beta"⟩] ∧
    computeChanges gpt4oStored gpt4oZeroCost =
      [⟨"status", .vStr "stable", .vStr "beta"⟩,
       ⟨"cost.input_per_1k", .vFloat (mkRat 5 1000), .vFloat 0⟩,
       ⟨"cost.output_per_1k", .vFloat (mkRat 15 1000), .vFloat 0⟩] ∧
    mergeNodes zeroCostStoredDoc zeroCostIncomingDoc =
      .mapping
        [("name", .scalar "gpt-4o"), ("status", .scalar "beta"),
         ("cost", .mapping [("input_per_1k", .scalar "0"),
           ("output_per_1k", .scalar "0")])] :=
  ⟨by decide, by decide, rfl⟩

/-- C4: Compute's output depends on the iteration order of the `existing`
map: the two orders of the same two-entry map (a permutation of each
other) yield different ChangeSets — the DeprecationCandidates lists differ
in order — so two runs on identical inputs need not agree, refuting
determinism (the spec flags this map-iteration dependence as a latent
bug). -/
theorem c4_compute_depends_on_map_iteration_order :
    existingOrderAB.Perm existingOrderBA ∧
    Compute "p" [] existingOrderAB ⟨false⟩ ≠ Compute "p" [] existingOrderBA ⟨false⟩ := by
  constructor
  · decide
  · decide

/-- C7 counterexample: Advance with hadNewRecords = true resets the third
component to 0, which decreases it whenever it was positive: on v = 1.2.3
the result is 1.3.0, whose last component 0 is smaller than 3.  The claim
that "Advance never decreases any individual component" is therefore
false. -/
theorem c7_counterexample_patch_reset_decreases :
    bumpSemver "1.2.3" true = .ok "1.3.0" ∧
    (bumpTriple (1, 2, 3) true).2.2 < 3 := by
  constructor <;> decide

/-- C7 (amended): on the scanned 3-component tuple (bumpTriple, the
arithmetic core of bumpSemver), Advance(v,true) > Advance(v,false) ≥ v in
lexicographic order; Advance(v,false) never decreases any component, and
Advance(v,true) never decreases the first two components but resets the
third to 0 (so the original "never decreases any component" holds only
for the first two in the hadNewRecords case). -/
theorem c7_version_monotonicity_amended (v : Int × Int × Int) :
    semverLt (bumpTriple v false) (bumpTriple v true) ∧
    semverLe v (bumpTriple v false) ∧
    (bumpTriple v false).1 = v.1 ∧ (bumpTriple v false).2.1 = v.2.1 ∧
    (bumpTriple v false).2.2 = v.2.2 + 1 ∧
    (bumpTriple v true).1 = v.1 ∧ (bumpTriple v true).2.1 = v.2.1 + 1 ∧
    (bumpTriple v true).2.2 = 0 := by
  rcases v with ⟨a, b, c⟩
  simp [bumpTriple, semverLt, semverLe, Prod.ext_iff]

/-- C8 counterexample: a stored version with 3 dot-separated parts where
one part is not numeric is NOT a hard error: bumpSemver ignores Sscanf's
result, so "1.x.2" is silently coerced to (1,0,2) and bumps to "1.0.3". -/
theorem c8_counterexample_nonnumeric_not_an_error :
    bumpSemver "1.x.2" false = .ok "1.0.3" := by
  decide

/-- C8 (amended): bumpSemver returns an error exactly when the stored
version does not split into exactly 3 dot-separated parts; a non-numeric
part among exactly 3 is scanned as 0, not an error. -/
theorem c8_error_iff_not_three_parts (version : String) (hasNew : Bool) :
    (∃ e, bumpSemver version hasNew = .error e) ↔
      (splitOnChar '.' version).length ≠ 3 := by
  rcases hl : splitOnChar '.' version with _ | ⟨a, _ | ⟨b, _ | ⟨c, _ | ⟨d, t⟩⟩⟩⟩ <;>
    simp [bumpSemver, hl]

/-- C9 counterexample: for a namespaced, mixed-case name the writer's file
name is the raw name plus ".yaml" (here "openai/GPT-4o.yaml"), not the
spec's lower-cased last segment ("gpt-4o.yaml"). -/
theorem c9_counterexample_no_lowercase_or_strip :
    writeModelFilename "openai/GPT-4o" = "openai/GPT-4o.yaml" ∧
    specTargetFilename "openai/GPT-4o" = "gpt-4o.yaml" ∧
    writeModelFilename "openai/GPT-4o" ≠ specTargetFilename "openai/GPT-4o" := by
  refine ⟨by decide, by decide, by decide⟩

/-- C9 (amended): WriteModel derives the file name as Name + ".yaml"
verbatim; this agrees with ValidateModel's expected file name whenever the
name has no namespace prefix, and with the spec's formula (last segment,
lower-cased) additionally only when the name is already lower-case. -/
theorem c9_filename_verbatim_name (name : String)
    (h : splitOnChar '/' name = [name]) :
    writeModelFilename name = validateExpectedFilename name ∧
    (lowerStr name = name → writeModelFilename name = specTargetFilename name) := by
  unfold writeModelFilename validateExpectedFilename specTargetFilename lastSegment
  rw [h]
  have hgl : ([name] : List String).getLastD "" = name := rfl
  rw [hgl]
  exact ⟨rfl, fun hl => by rw [hl]⟩

/-- C9 witness: the amended C9 instantiated at the unnamespaced,
lower-case name "gpt-4o". -/
theorem c9_filename_verbatim_name_witness :
    splitOnChar '/' "gpt-4o" = ["gpt-4o"] ∧
    (writeModelFilename "gpt-4o" = validateExpectedFilename "gpt-4o" ∧
     (lowerStr "gpt-4o" = "gpt-4o" →
       writeModelFilename "gpt-4o" = specTargetFilename "gpt-4o")) :=
  ⟨by decide, c9_filename_verbatim_name "gpt-4o" (by decide)⟩

/-- C10: when either the existing on-disk document or the incoming one is
not a YAML mapping after document unwrapping, mergeNodes returns the
(unwrapped) incoming tree wholesale, discarding the existing document's
content entirely; the non-destructiveness guarantee thus only applies to
mapping documents. -/
theorem c10_merge_non_mapping_returns_incoming (dst src : YNode)
    (h : isMapping (unwrapDoc dst) = false ∨ isMapping (unwrapDoc src) = false) :
    mergeNodes dst src = unwrapDoc src := by
  unfold mergeNodes
  rcases hd : unwrapDoc dst with v | ps | its | c <;>
    rcases hs : unwrapDoc src with v2 | ps2 | its2 | c2 <;>
    simp_all [isMapping]

/-- C10 witness: a scalar existing document is discarded wholesale in
favor of the incoming mapping. -/
theorem c10_merge_non_mapping_witness :
    isMapping (unwrapDoc (.document [.scalar "5"])) = false ∧
    mergeNodes (.document [.scalar "5"])
        (.document [.mapping [("name", .scalar "x")]]) =
      unwrapDoc (.document [.mapping [("name", .scalar "x")]]) :=
  ⟨rfl, c10_merge_non_mapping_returns_incoming _ _ (Or.inl rfl)⟩

/-- Candidates filtered against the rename old names never intersect them
(the structural content of rename exclusivity, for arbitrary rename and
disappearance lists). -/
lemma inter_renames_filtered_nil (renames : List RenamePair) (dis : List ModelChange) :
    ((renames.map RenamePair.oldName).inter
      ((dis.filter fun mc => !((renames.map RenamePair.oldName).contains mc.name)).map
        ModelChange.name)) = [] := by
  apply List.eq_nil_iff_forall_not_mem.mpr
  intro x hx
  have hx' : x ∈ (renames.map RenamePair.oldName) ∩
      ((dis.filter fun mc => !((renames.map RenamePair.oldName).contains mc.name)).map
        ModelChange.name) := hx
  rw [List.mem_inter_iff] at hx'
  obtain ⟨hx1, hx2⟩ := hx'
  simp only [List.mem_map, List.mem_filter] at hx2
  obtain ⟨mc, ⟨_, hcon⟩, hname⟩ := hx2
  rw [hname] at hcon
  simp at hcon
  obtain ⟨rp, hrp, hrpx⟩ := List.mem_map.mp hx1
  exact hcon rp hrp hrpx

/-- C5: rename exclusivity holds for every input: no OldName of a
PossibleRenames pair also occurs as the name of a DeprecationCandidates
entry, because Compute filters the disappeared list against exactly the
set of matched old names. -/
theorem c5_rename_exclusivity (provider : String) (discovered : List DiscoveredModel)
    (existing : List (String × Model)) (opts : DiffOptions) :
    ((Compute provider discovered existing opts).possibleRenames.map RenamePair.oldName).inter
      ((Compute provider discovered existing opts).deprecationCandidates.map ModelChange.name)
      = [] := by
  simp only [Compute]
  exact inter_renames_filtered_nil _ _

/-- C5 instantiated at the spec's rename scenario inputs (one disappeared
record, one new record of the same family). -/
theorem c5_rename_exclusivity_witness :
    ((Compute "openai" [renameNewDiscovered] [("gpt-4o-v1", renameOldStored)]
        ⟨false⟩).possibleRenames.map RenamePair.oldName).inter
      ((Compute "openai" [renameNewDiscovered] [("gpt-4o-v1", renameOldStored)]
        ⟨false⟩).deprecationCandidates.map ModelChange.name) = [] :=
  c5_rename_exclusivity "openai" _ _ ⟨false⟩

/-- A GoVal float64 assertion succeeds exactly on vFloat. -/
lemma asFloat_eq_some (v : GoVal) (x : ℚ) : v.asFloat = some x ↔ v = .vFloat x := by
  cases v <;> simp [GoVal.asFloat]

/-- The inner assessRisk fold over one update's changes is an any-fold. -/
lemma foldl_cost_trigger (l : List FieldChange) (d : Bool) :
    l.foldl (fun d c => if costDeltaTrigger c then true else d) d
      = (d || l.any costDeltaTrigger) := by
  induction l generalizing d with
  | nil => simp
  | cons c t ih =>
    rw [List.foldl_cons, ih, List.any_cons]
    cases h : costDeltaTrigger c <;> cases d <;> simp [h]

/-- The outer assessRisk fold over the updates is an any-fold. -/
lemma foldl_updates_trigger (l : List ModelUpdate) (d : Bool) :
    l.foldl
        (fun d u => u.changes.foldl (fun d c => if costDeltaTrigger c then true else d) d) d
      = (d || l.any fun u => u.changes.any costDeltaTrigger) := by
  induction l generalizing d with
  | nil => simp
  | cons u t ih =>
    rw [List.foldl_cons, ih, foldl_cost_trigger, List.any_cons]
    cases d <;> cases h : u.changes.any costDeltaTrigger <;> simp [h]

/-- Equivalence of the code's delta test with the spec's |new-old|/old
formulation, for a positive old value. -/
lemma delta_equiv (o n : ℚ) (ho : 0 < o) :
    ((n - o) / o > 35/100 ∨ (n - o) / o < -(35/100) ∨ n > o * 2) ↔
      (|n - o| / o > 35/100 ∨ n > 2 * o) := by
  have h1 : |n - o| / o = |(n - o) / o| := by rw [abs_div, abs_of_pos ho]
  rw [h1]
  constructor
  · rintro (h | h | h)
    · exact Or.inl (lt_of_lt_of_le h (le_abs_self _))
    · exact Or.inl (lt_of_lt_of_le (by linarith) (neg_le_abs _))
    · exact Or.inr (by linarith)
  · rintro (h | h)
    · rcases lt_abs.mp h with h2 | h2
      · exact Or.inl h2
      · exact Or.inr (Or.inl (by linarith))
    · exact Or.inr (Or.inr (by linarith))

/-- The single-change risk trigger, characterized. -/
lemma costDeltaTrigger_iff (c : FieldChange) :
    costDeltaTrigger c = true ↔
      ((c.field = "cost.input_per_1k" ∨ c.field = "cost.output_per_1k") ∧
        ∃ o n : ℚ, c.oldValue = .vFloat o ∧ c.newValue = .vFloat n ∧ 0 < o ∧
          (|n - o| / o > 35/100 ∨ n > 2 * o)) := by
  unfold costDeltaTrigger
  cases ho : c.oldValue <;> cases hn : c.newValue <;>
    simp [GoVal.asFloat, ho, hn]
  intro _ hpos
  rw [or_assoc]
  exact delta_equiv _ _ hpos

/-- C3 counterexample: the writer's computeChanges is not equivalent to
the Diff Engine's computeFieldChanges under default options: on a pair of
models differing only in display name, the writer reports a display_name
change while the diff (whose default leaves the stored display name
authoritative) reports none. -/
theorem c3_counterexample_display_name :
    computeChanges displayOnlyStored displayOnlyDiscovered =
      [⟨"display_name", .vStr "GPT-4O", .vStr "GPT-4O v2"⟩] ∧
    computeFieldChanges displayOnlyStored displayOnlyDiscovered ⟨false⟩ = [] ∧
    computeChanges displayOnlyStored displayOnlyDiscovered ≠
      computeFieldChanges displayOnlyStored displayOnlyDiscovered ⟨false⟩ := by
  refine ⟨by decide, by decide, by decide⟩

/-- C3 (amended): the claimed equivalence only survives as a guarantee on
a restricted domain: whenever the discovered display name is absent or
unchanged, the discovered cost is not the zero pair, the capability
difference is not removal-only (the symmetric set test agrees with the
addition-only test), and both modality slices are unchanged,
computeChanges produces exactly computeFieldChanges with default options.
Outside that domain the two can diverge (the writer always tracks
display_name, has no zero-cost guard, detects only capability additions,
and never compares modalities), as the counterexample shows. -/
theorem c3_agreement_on_aligned_domain (existing discovered : Model)
    (hdn : discovered.displayName = "" ∨ existing.displayName = discovered.displayName)
    (hcost : (discovered.cost.all fun dc => !(zeroCost dc)) = true)
    (hcaps : capabilitiesChanged existing.capabilities discovered.capabilities =
      (discovered.capabilities.any fun c => !(existing.capabilities.contains c)))
    (hmi : equalStringSlices existing.modalities.input discovered.modalities.input = true)
    (hmo : equalStringSlices existing.modalities.output discovered.modalities.output = true) :
    computeChanges existing discovered = computeFieldChanges existing discovered ⟨false⟩ := by
  unfold computeChanges computeFieldChanges
  have hd : (existing.displayName != discovered.displayName &&
      discovered.displayName != "") = false := by
    rcases hdn with h | h <;> simp [h]
  have hfam : (existing.family != discovered.family && discovered.family != "") =
      (discovered.family != "" && existing.family != discovered.family) :=
    Bool.and_comm _ _
  have hst : (existing.status != discovered.status && discovered.status != "") =
      (discovered.status != "" && existing.status != discovered.status) :=
    Bool.and_comm _ _
  rw [hd, hfam, hst, hcaps, hmi, hmo]
  cases hc : discovered.cost with
  | none => simp
  | some dc =>
    have hz : zeroCost dc = false := by
      rw [hc] at hcost
      simpa using hcost
    simp [hz]

/-- C3 witness: the agreement instantiated on a concrete aligned pair
(status change, non-zero cost change, capability addition). -/
theorem c3_agreement_witness :
    ((agreeDiscovered.displayName = "" ∨ agreeStored.displayName = agreeDiscovered.displayName) ∧
     (agreeDiscovered.cost.all fun dc => !(zeroCost dc)) = true ∧
     capabilitiesChanged agreeStored.capabilities agreeDiscovered.capabilities =
       (agreeDiscovered.capabilities.any fun c => !(agreeStored.capabilities.contains c)) ∧
     equalStringSlices agreeStored.modalities.input agreeDiscovered.modalities.input = true ∧
     equalStringSlices agreeStored.modalities.output agreeDiscovered.modalities.output = true) ∧
    computeChanges agreeStored agreeDiscovered =
      computeFieldChanges agreeStored agreeDiscovered ⟨false⟩ :=
  ⟨⟨by decide, by decide, by decide, by decide, by decide⟩,
   c3_agreement_on_aligned_domain agreeStored agreeDiscovered (by decide) (by decide)
     (by decide) (by decide) (by decide)⟩

/-- Association-list lookup distributes over append. -/
lemma lookup_append (l1 l2 : List (String × YNode)) (k : String) :
    (l1 ++ l2).lookup k = ((l1.lookup k).or (l2.lookup k)) := by
  induction l1 with
  | nil => simp [List.lookup, Option.or]
  | cons kv t ih =>
    obtain ⟨a, b⟩ := kv
    rw [List.cons_append]
    cases h : k == a
    case true => simp only [List.lookup, h, Option.or]
    case false =>
      simp only [List.lookup, h]
      exact ih

/-- Lookup misses exactly the keys absent from the list. -/
lemma lookup_eq_none_of_not_mem (l : List (String × YNode)) (k : String)
    (h : k ∉ l.map Prod.fst) : l.lookup k = none := by
  induction l with
  | nil => rfl
  | cons kv t ih =>
    obtain ⟨a, b⟩ := kv
    simp only [List.map_cons, List.mem_cons] at h
    push_neg at h
    have hk : (k == a) = false := by simpa using h.1
    simp only [List.lookup, hk]
    exact ih h.2

/-- Lookup hits every key present in the list. -/
lemma lookup_isSome_of_mem (l : List (String × YNode)) (k : String)
    (h : k ∈ l.map Prod.fst) : (l.lookup k).isSome = true := by
  induction l with
  | nil => simp at h
  | cons kv t ih =>
    obtain ⟨a, b⟩ := kv
    cases hk : k == a
    case true => simp only [List.lookup, hk, Option.isSome_some]
    case false =>
      simp only [List.map_cons, List.mem_cons] at h
      rcases h with h | h
      · exact absurd h (by simpa using hk)
      · simp only [List.lookup, hk]
        exact ih h

/-- When the source keys are unique, the Go map lookup (last write wins)
is ordinary first-occurrence association lookup. -/
lemma goMapLookup_eq_lookup (ps : List (String × YNode)) (k : String)
    (h : (ps.map Prod.fst).Nodup) : goMapLookup ps k = ps.lookup k := by
  induction ps with
  | nil => rfl
  | cons kv t ih =>
    obtain ⟨a, b⟩ := kv
    simp only [List.map_cons, List.nodup_cons] at h
    unfold goMapLookup at ih ⊢
    rw [List.reverse_cons, lookup_append, ih h.2]
    cases hk : k == a
    case true =>
      have hke : k = a := by simpa using hk
      rw [lookup_eq_none_of_not_mem t k (hke ▸ h.1)]
      simp only [List.lookup, hk, Option.or]
    case false =>
      simp only [List.lookup, hk]
      cases t.lookup k <;> simp [Option.or]

/-- C2: merging an incoming mapping document into an existing mapping
document keeps every stored-only key untouched in place, replaces in
place the value of every key present in both (by the incoming value), and
appends the incoming-only keys at the end in incoming order; consequently
an engine-unknown key of the stored tree absent from the incoming tree
survives the merge with its value intact. -/
theorem c2_merge_preserves_unknown_keys (dstPs srcPs : List (String × YNode))
    (hs : (srcPs.map Prod.fst).Nodup) :
    mergeNodes (.document [.mapping dstPs]) (.document [.mapping srcPs]) =
      .mapping ((dstPs.map fun kv => ((srcPs.lookup kv.1).elim kv fun v => (kv.1, v))) ++
        (srcPs.filter fun kv => !((dstPs.map Prod.fst).contains kv.1))) ∧
    ∀ kv ∈ dstPs, kv.1 ∉ srcPs.map Prod.fst →
      kv ∈ mappingPairs
        (mergeNodes (.document [.mapping dstPs]) (.document [.mapping srcPs])) := by
  have hdoc : mergeNodes (.document [.mapping dstPs]) (.document [.mapping srcPs]) =
      mergeNodes (.mapping dstPs) (.mapping srcPs) := rfl
  have hmain : mergeNodes (.mapping dstPs) (.mapping srcPs) =
      .mapping ((dstPs.map fun kv => ((srcPs.lookup kv.1).elim kv fun v => (kv.1, v))) ++
        (srcPs.filter fun kv => !((dstPs.map Prod.fst).contains kv.1))) := by
    show YNode.mapping _ = _
    congr 1
    congr 1
    · apply List.map_congr_left
      intro kv _
      rw [goMapLookup_eq_lookup srcPs kv.1 hs]
      cases srcPs.lookup kv.1 <;> rfl
    · apply List.filter_congr
      intro kv hkv
      have hsome : (goMapLookup srcPs kv.1).isSome = true := by
        unfold goMapLookup
        apply lookup_isSome_of_mem
        rw [List.map_reverse, List.mem_reverse]
        exact List.mem_map_of_mem Prod.fst hkv
      dsimp only
      rw [hsome, Bool.and_true]
      congr 1
      rw [Bool.eq_iff_iff]
      simp only [List.any_eq_true, beq_iff_eq, List.contains_iff_exists_mem_beq,
        List.mem_map]
      constructor
      · rintro ⟨x, hx, hxe⟩
        exact ⟨kv.1, ⟨x, hx, hxe⟩, rfl⟩
      · rintro ⟨a2, ⟨x, hx, hxe⟩, hk⟩
        exact ⟨x, hx, by rw [hxe, hk]⟩
  rw [hdoc, hmain]
  refine ⟨rfl, ?_⟩
  intro kv hkv hnot
  have hnone : srcPs.lookup kv.1 = none := lookup_eq_none_of_not_mem srcPs kv.1 hnot
  apply List.mem_append_left
  apply List.mem_map.mpr
  refine ⟨kv, hkv, ?_⟩
  rw [hnone]
  rfl

/-- C2 witness: the merge characterization on the concrete documents from
the writer tests — the manually added key "custom_field" survives a merge
that only changes "status". -/
theorem c2_merge_preserves_unknown_keys_witness :
    ((srcExample.map Prod.fst).Nodup) ∧
    (mergeNodes (.document [.mapping dstExample]) (.document [.mapping srcExample]) =
        .mapping ((dstExample.map fun kv =>
            ((srcExample.lookup kv.1).elim kv fun v => (kv.1, v))) ++
          (srcExample.filter fun kv => !((dstExample.map Prod.fst).contains kv.1))) ∧
      ∀ kv ∈ dstExample, kv.1 ∉ srcExample.map Prod.fst →
        kv ∈ mappingPairs
          (mergeNodes (.document [.mapping dstExample])
            (.document [.mapping srcExample]))) :=
  ⟨by decide, c2_merge_preserves_unknown_keys dstExample srcExample (by decide)⟩

/-- C6: the Risk Assessor marks a ChangeSet as needing review (draft)
exactly when New+Updated exceeds 25, or DeprecationCandidates exceeds 3,
or some cost-field change with positive float old value has
|new-old|/old > 0.35 or new > 2*old; it always reports blocked = false
with an empty reason (it is a pure classification that never blocks and
never mutates its input), and in particular 26 New entries force draft. -/
theorem c6_assess_risk_draft_iff (cs : ChangeSet) :
    ((assessRisk cs).1 = true ↔
      (TotalChanged cs > 25 ∨ cs.deprecationCandidates.length > 3 ∨
        ∃ u ∈ cs.updated, ∃ c ∈ u.changes,
          (c.field = "cost.input_per_1k" ∨ c.field = "cost.output_per_1k") ∧
          ∃ o n : ℚ, c.oldValue = .vFloat o ∧ c.newValue = .vFloat n ∧ 0 < o ∧
            (|n - o| / o > 35/100 ∨ n > 2 * o))) ∧
    (assessRisk cs).2.1 = false ∧ (assessRisk cs).2.2 = "" ∧
    (cs.new.length = 26 → (assessRisk cs).1 = true) := by
  have h1 : (assessRisk cs).1 =
      (decide (TotalChanged cs > 25) || decide (cs.deprecationCandidates.length > 3) ||
        cs.updated.any fun u => u.changes.any costDeltaTrigger) := by
    simp only [assessRisk]
    rw [foldl_updates_trigger]
    by_cases hdep : cs.deprecationCandidates.length > 3 <;>
      simp [hdep]
  refine ⟨?_, rfl, rfl, ?_⟩
  · rw [h1]
    simp only [Bool.or_eq_true, decide_eq_true_eq, List.any_eq_true, costDeltaTrigger_iff]
    rw [or_assoc]
  · intro h26
    have htc : TotalChanged cs > 25 := by
      unfold TotalChanged
      omega
    rw [h1]
    simp [htc]

/-- C6 witness: a concrete ChangeSet with 26 New entries is marked
needsReview by the assessor. -/
theorem c6_assess_risk_witness :
    (ChangeSet.mk "p" (List.replicate 26 ⟨"m", blankModel⟩) [] [] [] 0).new.length = 26 ∧
    (assessRisk (ChangeSet.mk "p" (List.replicate 26 ⟨"m", blankModel⟩) [] [] [] 0)).1
      = true :=
  ⟨by decide,
   (c6_assess_risk_draft_iff
     (ChangeSet.mk "p" (List.replicate 26 ⟨"m", blankModel⟩) [] [] [] 0)).2.2.2 (by decide)⟩

end Sentinel
